import Mathlib

/-!
Shallow embedding of the Windows self-update orchestrator
(`Win32UpdateService` in the repository source) together with proofs about
its update pipeline: the download/verify/promote step, the cache janitor,
the check-cycle state machine, the exit observer of the installer invoker and
readiness poll, and quit-and-install.

Conventions of the embedding:
* The filesystem is restricted to the per-target cache directory, modelled
  as an association list from file name to file content.  All filesystem
  operations of the service (`exists`, `download` to a `.tmp` path,
  `rename`, `readdir`, `unlink`, `writeFile`) act inside this directory.
* Network transport is an oracle `net : String → Except String String`
  from URL to downloaded content or transport error.
* The content checksum of `vs/base/node/crypto` is an abstract function
  `hashFn : String → String` on file contents; `checksum(file, expected)`
  rejects with "Hash mismatch" when `hashFn content ≠ expected`.
* Promise-chain errors are `Except String`; the catch-all continuation of
  `doCheckForUpdates` (source lines 177–186) makes the whole cycle a
  total function, which is the embedding of "the returned task does not
  reject".
-/

namespace VSCodeUpdate

/-- The two Windows update types distinguished by `getUpdateType()`:
an Inno Setup install versus an archive (zip) install. -/
inductive UpdateType
  | Setup
  | Archive
deriving DecidableEq, Repr

/-- The `IUpdate` descriptor parsed from the feed JSON.  String fields that
may be missing in the JSON are modelled as `""` (JavaScript falsy), matching
the `!update.url || !update.version || !update.productVersion` guard. -/
structure IUpdate where
  url : String
  version : String
  productVersion : String
  hash : Option String
  supportsFastUpdate : Bool
deriving DecidableEq, Repr

/-- The update states of `vs/platform/update/common/update` used by the
Windows service. -/
inductive UpdateState
  | Idle (updateType : UpdateType) (error : Option String)
  | CheckingForUpdates (explicit : Bool)
  | AvailableForDownload (update : IUpdate)
  | Downloading (update : IUpdate)
  | Downloaded (update : IUpdate)
  | Ready (update : IUpdate)
  | Updating (update : IUpdate)
deriving DecidableEq, Repr

/-- The transient `IAvailableUpdate` record held by the service while a
download is outstanding or complete. -/
structure IAvailableUpdate where
  packagePath : String
  updateFilePath : Option String
deriving DecidableEq, Repr

/-- The cache directory: an association list from file name to content. -/
def FS := List (String × String)

instance : DecidableEq FS := inferInstanceAs (DecidableEq (List (String × String)))

/-- Read the content of a file. -/
def FS.read : FS → String → Option String
  | [], _ => none
  | (q, c) :: fs, p => if q = p then some c else FS.read fs p

/-- `pfs.exists`. -/
def FS.existsFile (fs : FS) (p : String) : Bool :=
  (FS.read fs p).isSome

/-- Delete every entry under the given name (`pfs.unlink`). -/
def FS.removeKey : FS → String → FS
  | [], _ => []
  | (q, c) :: fs, p => if q = p then FS.removeKey fs p else (q, c) :: FS.removeKey fs p

/-- Write (create or overwrite) a file (`download` target, `pfs.writeFile`). -/
def FS.write (fs : FS) (p c : String) : FS :=
  (p, c) :: FS.removeKey fs p

/-- `pfs.rename src dst`.  On the modelled paths the source always exists. -/
def FS.rename (fs : FS) (src dst : String) : FS :=
  match FS.read fs src with
  | none => fs
  | some c => FS.write (FS.removeKey fs src) dst c

/-- Directory listing (`pfs.readdir`). -/
def FS.names (fs : FS) : List String :=
  fs.map (fun e => e.1)

/-- JavaScript truthiness of the optional `update.hash` string, as evaluated
by `hash ? () => checksum(downloadPath, update.hash) : () => null` at source
line 156. -/
def hashTruthy : Option String → Bool
  | none => false
  | some h => !(h == "")

/-- Result of one run of the download/verify/promote step. -/
structure DownloadOutcome where
  fs : FS
  result : Except String String
  requests : Nat

/-- Source lines 144–159 of `Win32UpdateService.doCheckForUpdates`: if the
package already exists at the cache path, short-circuit with zero requests;
otherwise issue one request, download to `<target>.tmp`, verify the checksum
when the descriptor carries a (truthy) hash, and promote the temporary file
by rename only after verification. -/
def downloadStep (hashFn : String → String) (net : String → Except String String)
    (fs : FS) (update : IUpdate) (updatePackagePath : String) : DownloadOutcome :=
  if FS.existsFile fs updatePackagePath then
    { fs := fs, result := .ok updatePackagePath, requests := 0 }
  else
    let downloadPath := updatePackagePath ++ ".tmp"
    match net update.url with
    | .error e => { fs := fs, result := .error e, requests := 1 }
    | .ok content =>
      let fs1 := FS.write fs downloadPath content
      if hashTruthy update.hash then
        if some (hashFn content) = update.hash then
          { fs := FS.rename fs1 downloadPath updatePackagePath
          , result := .ok updatePackagePath, requests := 1 }
        else
          { fs := fs1, result := .error "Hash mismatch", requests := 1 }
      else
        { fs := FS.rename fs1 downloadPath updatePackagePath
        , result := .ok updatePackagePath, requests := 1 }

/-- One regex character comparison for the cleanup pattern: an unescaped dot
in the pattern is a wildcard matching any character; every other pattern
character matches only itself. -/
def regexCharMatch (pc c : Char) : Bool :=
  pc == '.' || pc == c

/-- Charwise match of a fixed-length regex fragment (no quantifiers) against
a same-length character window. -/
def matchWild : List Char → List Char → Bool
  | [], [] => true
  | pc :: ps, c :: cs => regexCharMatch pc c && matchWild ps cs
  | _, _ => false

/-- The cleanup regular-expression test of source line 200,
`new RegExp(quality ++ "-" ++ exceptVersion ++ "\\.exe$").test(name)`:
the pattern is end-anchored and, for quality/version strings free of regex
metacharacters other than the dot, of fixed length, so a match exists exactly
when the final window of the name matches charwise.  The dots inside
`quality` and the version are unescaped wildcards; only the escaped dot of
`\.exe` is a literal dot. -/
def cleanupRegexTest (quality v name : String) : Bool :=
  let pat := (quality ++ "-" ++ v).data
  let nd := name.data
  if pat.length + 4 ≤ nd.length then
    let tl := nd.drop (nd.length - (pat.length + 4))
    matchWild pat (tl.take pat.length) && tl.drop pat.length == ".exe".data
  else false

/-- The survival predicate of `Win32UpdateService.cleanup` (line 200): with an
except-version, exactly the names matching the end-anchored regex are kept
(their deletion filter is the negation); with `null`, everything is deleted. -/
def keepName (quality : String) (exceptVersion : Option String) (name : String) : Bool :=
  match exceptVersion with
  | some v => cleanupRegexTest quality v name
  | none => false

/-- `Win32UpdateService.cleanup` (lines 199–209) on a directory listing:
the entries remaining after every entry failing `keepName` is unlinked
(per-entry unlink failures are swallowed in the source; deletions succeed in
the model). -/
def cleanup (quality : String) (exceptVersion : Option String) (dir : List String) :
    List String :=
  dir.filter (keepName quality exceptVersion)

/-- `cleanup` acting on the cache-directory filesystem. -/
def cleanupFS (quality : String) (exceptVersion : Option String) (fs : FS) : FS :=
  fs.filter (fun e => keepName quality exceptVersion e.1)

/-- `getUpdatePackagePath` (line 196): the cache file name for a version. -/
def updatePackageName (quality version : String) : String :=
  "CodeSetup-" ++ quality ++ "-" ++ version ++ ".exe"

/-- The marker-file name written by `doApplyUpdate` (line 224). -/
def updateFlagName (quality version : String) : String :=
  "CodeSetup-" ++ quality ++ "-" ++ version ++ ".flag"

/-! ### Basic filesystem lemmas -/

theorem FS.read_removeKey_ne (fs : FS) (q p : String) (h : q ≠ p) :
    FS.read (FS.removeKey fs q) p = FS.read fs p := by
  induction fs with
  | nil => rfl
  | cons e fs ih =>
    obtain ⟨k, c⟩ := e
    simp only [FS.removeKey]
    by_cases hk : k = q
    · subst hk
      rw [if_pos rfl, ih]
      simp [FS.read, h]
    · rw [if_neg hk]
      by_cases hp : k = p
      · simp [FS.read, hp]
      · simp [FS.read, hp, ih]

theorem FS.read_removeKey_self (fs : FS) (q : String) :
    FS.read (FS.removeKey fs q) q = none := by
  induction fs with
  | nil => rfl
  | cons e fs ih =>
    obtain ⟨k, c⟩ := e
    by_cases hk : k = q <;> simp [FS.removeKey, FS.read, hk, ih]

theorem FS.read_write_self (fs : FS) (p c : String) :
    FS.read (FS.write fs p c) p = some c := by
  simp [FS.write, FS.read]

theorem FS.read_write_ne (fs : FS) (q p c : String) (h : q ≠ p) :
    FS.read (FS.write fs q c) p = FS.read fs p := by
  simp [FS.write, FS.read, h, FS.read_removeKey_ne fs q p h]

/-- A string is never equal to itself extended by `".tmp"`. -/
theorem ne_append_tmp (p : String) : p ≠ p ++ ".tmp" := by
  intro h
  have hl : p.length = (p ++ ".tmp").length := congrArg String.length h
  rw [String.length_append] at hl
  have h4 : String.length ".tmp" = 4 := rfl
  rw [h4] at hl
  omega

/-! ### The controller, installer invoker and asynchronous observers -/

/-- The mutable pieces of one `Win32UpdateService` instance together with its
pending asynchronous continuations: the controller state, the transient
`availableUpdate` record, the cache directory, the not-yet-completed
`pollUntil` task started by `doApplyUpdate` (holding the update it captured),
and whether the installer-exit observer is armed. -/
structure Sys where
  state : UpdateState
  availableUpdate : Option IAvailableUpdate
  fs : FS
  pollPending : Option IUpdate
  exitArmed : Bool
deriving DecidableEq

/-- Externally visible side effects of the service. -/
inductive Action
  | spawned (pkg : String) (args : List String)
  | wroteFlag (name : String)
  | openedExternal (url : String)
deriving DecidableEq, Repr

/-- Result of the synchronous part of `doApplyUpdate`. -/
structure ApplyResult where
  sys : Sys
  trace : List UpdateState
  actions : List Action
deriving DecidableEq

/-- The installer command-line flags of source line 227. -/
def installerArgs (flagName : String) : List String :=
  ["/verysilent", "/update=\"" ++ flagName ++ "\"", "/nocloseapplications",
   "/mergetasks=runcode,!desktopicon,!quicklaunchicon"]

/-- `Win32UpdateService.doApplyUpdate` (source lines 211–246): no-op unless the
state is Downloaded or Downloading and the `availableUpdate` record is present;
otherwise records Updating, writes the marker flag file, spawns the installer
detached, arms the exit observer (lines 233–236) and starts the readiness poll
(lines 238–243).  The poll and the observer are asynchronous: they are resolved
later by `stepPollTick` and `stepInstallerExit`. -/
def doApplyUpdate (quality : String) (s : Sys) : ApplyResult :=
  match s.state with
  | .Downloaded u | .Downloading u =>
    match s.availableUpdate with
    | none => { sys := s, trace := [], actions := [] }
    | some r =>
      let flagName := updateFlagName quality u.version
      { sys :=
          { state := .Updating u
          , availableUpdate := some { r with updateFilePath := some flagName }
          , fs := FS.write s.fs flagName "flag"
          , pollPending := some u
          , exitArmed := true }
      , trace := [.Updating u]
      , actions := [.wroteFlag flagName, .spawned r.packagePath (installerArgs flagName)] }
  | _ => { sys := s, trace := [], actions := [] }

/-- The `child.once exit` observer of source lines 233–236: on installer exit
it clears the `availableUpdate` record and returns the controller to
`Idle(getUpdateType())`.  It fires at most once and does not cancel the
pending readiness poll. -/
def stepInstallerExit (updateType : UpdateType) (s : Sys) : Sys :=
  if s.exitArmed then
    { s with state := .Idle updateType none, availableUpdate := none, exitArmed := false }
  else s

/-- One tick of `pollUntil(() => isActive(readyMutexName))` (source lines
29–41 and 238–243): the tick evaluates the readiness-mutex predicate; when it
is active the continuation sets `Ready(update)` and the task completes,
otherwise the task stays pending.  The predicate reads only the mutex, so
installer exit is invisible to it. -/
def stepPollTick (mutexActive : Bool) (s : Sys) : Sys :=
  match s.pollPending with
  | none => s
  | some u => if mutexActive then { s with state := .Ready u, pollPending := none } else s

/-- Outcome of `doQuitAndInstall`. -/
inductive QuitOutcome
  | noop
  | removedFlag (name : String)
  | spawnedSilent (pkg : String)
  | crashAbsentRecord
deriving DecidableEq, Repr

/-- `Win32UpdateService.doQuitAndInstall` (source lines 248–263): early return
unless Ready; for a fast-update-capable package with a truthy marker path it
unlinks the marker file, otherwise it re-spawns the installer silently.  The
reads `this.availableUpdate.updateFilePath` and `this.availableUpdate.packagePath`
are unguarded: when the record is absent the JavaScript throws a TypeError,
modelled as `crashAbsentRecord`. -/
def doQuitAndInstall (s : Sys) : QuitOutcome :=
  match s.state with
  | .Ready u =>
    match s.availableUpdate with
    | none => .crashAbsentRecord
    | some r =>
      if u.supportsFastUpdate &&
          (match r.updateFilePath with | some f => !(f == "") | none => false) then
        .removedFlag (r.updateFilePath.getD "")
      else
        .spawnedSilent r.packagePath
  | _ => .noop

/-! ### One full check cycle -/

/-- Environment of one `doCheckForUpdates` cycle: every external input the
source reads during the cycle. -/
structure CheckEnv where
  url : Option String
  feedResponse : Except String (Option IUpdate)
  updateType : UpdateType
  fastUpdatesEnabled : Bool
  quality : String
  target : String
  net : String → Except String String
  hashFn : String → String
  context : Bool

/-- Result of one check cycle: the system afterwards, the states set in
order, the telemetry events (name, explicit flag) emitted, the external
actions, the number of network requests issued, and the error captured by the
catch-all continuation of lines 177–186 (when any). -/
structure CheckResult where
  sys : Sys
  trace : List UpdateState
  telemetry : List (String × Bool)
  actions : List Action
  requests : Nat
  err : Option String

/-- The guard of source line 124:
`!update || !update.url || !update.version || !update.productVersion`. -/
def usableUpdate : Option IUpdate → Bool
  | none => false
  | some u => !(u.url == "") && !(u.version == "") && !(u.productVersion == "")

/-- The "no update available" continuation (source lines 124–134): telemetry
`update:notAvailable` with the explicit flag, then `Idle(updateType)` with no
message. -/
def notAvailableResult (env : CheckEnv) (s : Sys) : CheckResult :=
  { sys := { s with state := .Idle env.updateType none }
  , trace := [.CheckingForUpdates env.context, .Idle env.updateType none]
  , telemetry := [("update:notAvailable", env.context)]
  , actions := [], requests := 1, err := none }

/-- The download outcome of one cycle for descriptor `u`: cleanup with the
new version exempted (line 143), then the download/verify/promote step at the
cache file name of the version. -/
def cycleDownload (env : CheckEnv) (s : Sys) (u : IUpdate) : DownloadOutcome :=
  downloadStep env.hashFn env.net (cleanupFS env.quality (some u.version) s.fs) u
    (updatePackageName env.quality u.version)

/-- Source lines 136–175: the tail of the check cycle once a usable descriptor
was parsed — Archive hand-off, or Downloading, cleanup, download/verify/promote,
then the fast-update routing; any download error flows into the catch-all of
lines 177–186. -/
def checkWithUpdate (env : CheckEnv) (s : Sys) (u : IUpdate) : CheckResult :=
  if env.updateType = UpdateType.Archive then
    { sys := { s with state := .AvailableForDownload u }
    , trace := [.CheckingForUpdates env.context, .AvailableForDownload u]
    , telemetry := [], actions := [], requests := 1, err := none }
  else
    match (cycleDownload env s u).result with
    | .error e =>
      { sys := { s with state := .Idle env.updateType (some e), fs := (cycleDownload env s u).fs }
      , trace := [.CheckingForUpdates env.context, .Downloading u,
                  .Idle env.updateType (some e)]
      , telemetry := [("update:notAvailable", env.context)]
      , actions := [], requests := 1 + (cycleDownload env s u).requests, err := some e }
    | .ok packagePath =>
      let s3 : Sys :=
        { s with
          state := .Downloading u,
          fs := (cycleDownload env s u).fs,
          availableUpdate := some { packagePath := packagePath, updateFilePath := none } }
      if env.fastUpdatesEnabled && u.supportsFastUpdate then
        if env.target == "user" then
          let a := doApplyUpdate env.quality s3
          { sys := a.sys
          , trace := [.CheckingForUpdates env.context, .Downloading u] ++ a.trace
          , telemetry := [], actions := a.actions
          , requests := 1 + (cycleDownload env s u).requests, err := none }
        else
          { sys := { s3 with state := .Downloaded u }
          , trace := [.CheckingForUpdates env.context, .Downloading u, .Downloaded u]
          , telemetry := [], actions := []
          , requests := 1 + (cycleDownload env s u).requests, err := none }
      else
        { sys := { s3 with state := .Ready u }
        , trace := [.CheckingForUpdates env.context, .Downloading u, .Ready u]
        , telemetry := [], actions := []
        , requests := 1 + (cycleDownload env s u).requests, err := none }

/-- The continuation receiving the parsed feed response (source lines
121–175) or its request/parse error (the catch-all of lines 177–186): a
transport or parse error ends in `update:notAvailable` telemetry and `Idle`
with the message; a missing or field-incomplete descriptor is the normal
"no update" outcome; a usable descriptor runs the descriptor tail. -/
def checkOnFeed (env : CheckEnv) (s : Sys) : Except String (Option IUpdate) → CheckResult
  | .error e =>
    { sys := { s with state := .Idle env.updateType (some e) }
    , trace := [.CheckingForUpdates env.context, .Idle env.updateType (some e)]
    , telemetry := [("update:notAvailable", env.context)]
    , actions := [], requests := 1, err := some e }
  | .ok none => notAvailableResult env s
  | .ok (some u) =>
    if usableUpdate (some u) then checkWithUpdate env s u
    else notAvailableResult env s

/-- `Win32UpdateService.doCheckForUpdates` (source lines 112–187), one full
check cycle.  The catch-all continuation of lines 177–186 makes the cycle a
total function: every pipeline error ends in `update:notAvailable` telemetry
and `Idle` carrying the message, never a rejected task. -/
def doCheckForUpdates (env : CheckEnv) (s : Sys) : CheckResult :=
  match env.url with
  | none =>
    { sys := s, trace := [], telemetry := [], actions := [], requests := 0, err := none }
  | some _ => checkOnFeed env s env.feedResponse

/-! ### The readiness poll loop -/

/-- Fuel-indexed unfolding of `pollUntil` (source lines 29–41): `s k` is the
value the polled predicate returns on its `k`-th evaluation, counted from
`k₀`; the loop completes at the first true evaluation and re-schedules itself
forever otherwise.  `none` means the fuel ran out with the task still
pending. -/
def pollUntilRuns (s : Nat → Bool) : Nat → Nat → Option Nat
  | _, 0 => none
  | k₀, fuel + 1 => if s k₀ then some k₀ else pollUntilRuns s (k₀ + 1) fuel

/-- The `pollUntil` task eventually completes. -/
def pollCompletes (s : Nat → Bool) : Prop :=
  ∃ fuel, (pollUntilRuns s 0 fuel).isSome

/-- Joint observation of the two asynchronous facts the apply phase can see. -/
structure SysObs where
  mutexActive : Bool
  installerExited : Bool

/-- The predicate polled at source line 242, `() => isActive(readyMutexName)`:
it reads only the readiness mutex and is blind to installer exit. -/
def readyPollFn (t : Nat → SysObs) (n : Nat) : Bool :=
  (t n).mutexActive

/-! ### Concrete fixtures used by witnesses and counterexamples -/

/-- A descriptor with no hash and no fast-update capability. -/
def u0 : IUpdate :=
  { url := "u", version := "1", productVersion := "1", hash := none,
    supportsFastUpdate := false }

/-- A fast-update-capable descriptor. -/
def uF : IUpdate :=
  { url := "u", version := "1", productVersion := "1", hash := none,
    supportsFastUpdate := true }

/-- A hash-carrying descriptor (the identity checksum of content "c"). -/
def uH : IUpdate :=
  { url := "u", version := "1", productVersion := "1", hash := some "c",
    supportsFastUpdate := false }

/-- The resting service: Idle, no record, empty cache, no pending tasks. -/
def sys0 : Sys :=
  { state := .Idle .Setup none, availableUpdate := none, fs := [],
    pollPending := none, exitArmed := false }

/-- A network oracle that always delivers content "c". -/
def netC : String → Except String String := fun _ => Except.ok "c"

/-- Setup-type check environment, fast updates disabled. -/
def env0 : CheckEnv :=
  { url := some "feed", feedResponse := .ok (some u0), updateType := .Setup,
    fastUpdatesEnabled := false, quality := "q", target := "sys",
    net := netC, hashFn := fun c => c, context := false }

/-- Setup-type check environment, fast updates enabled, per-user target. -/
def envF : CheckEnv :=
  { url := some "feed", feedResponse := .ok (some uF), updateType := .Setup,
    fastUpdatesEnabled := true, quality := "q", target := "user",
    net := netC, hashFn := fun c => c, context := false }

/-- Check environment whose feed request fails. -/
def envE : CheckEnv :=
  { url := some "feed", feedResponse := .error "ECONNRESET", updateType := .Setup,
    fastUpdatesEnabled := false, quality := "q", target := "sys",
    net := fun _ => Except.error "offline", hashFn := fun c => c, context := true }

/-- Check environment whose feed returns an empty body (no update). -/
def envN : CheckEnv :=
  { url := some "feed", feedResponse := .ok none, updateType := .Setup,
    fastUpdatesEnabled := false, quality := "q", target := "sys",
    net := netC, hashFn := fun c => c, context := false }

/-! ### C1 — promotion only after checksum verification -/

/-- C1: in a check cycle whose descriptor carries a (truthy) content hash and
whose package is not yet cached, the download step promotes a file to the
final cache package path only when the computed checksum of the downloaded content
equals the supplied hash — the promoted file is then exactly that verified
content — and on a checksum mismatch it returns the error and leaves no file
at the final cache path. -/
theorem hashVerifiedPromotion (hashFn : String → String)
    (net : String → Except String String) (fs : FS) (u : IUpdate) (p h : String)
    (hh : u.hash = some h) (hne : h ≠ "") (habs : FS.read fs p = none) :
    (∀ q, (downloadStep hashFn net fs u p).result = Except.ok q →
      q = p ∧ ∃ c, net u.url = Except.ok c ∧ hashFn c = h ∧
        FS.read (downloadStep hashFn net fs u p).fs p = some c)
    ∧ (∀ c, net u.url = Except.ok c → hashFn c ≠ h →
      (downloadStep hashFn net fs u p).result = Except.error "Hash mismatch" ∧
        FS.read (downloadStep hashFn net fs u p).fs p = none) := by
  have hex : FS.existsFile fs p = false := by simp [FS.existsFile, habs]
  have htr : hashTruthy u.hash = true := by
    rw [hh]; simp [hashTruthy, hne]
  unfold downloadStep
  rw [hex]
  simp only [Bool.false_eq_true, if_false]
  cases hnet : net u.url with
  | error e =>
    constructor
    · intro q hq
      simp at hq
    · intro c hc
      simp at hc
  | ok c =>
    rw [htr]
    simp only [if_true]
    by_cases hcmp : some (hashFn c) = u.hash
    · rw [if_pos hcmp]
      have hch : hashFn c = h := by
        rw [hh] at hcmp
        exact Option.some.inj hcmp
      constructor
      · intro q hq
        refine ⟨(Except.ok.inj hq).symm, c, rfl, hch, ?_⟩
        simp [FS.rename, FS.read_write_self]
      · intro c0 hc0 hne0
        have hcc : c = c0 := Except.ok.inj hc0
        rw [← hcc] at hne0
        exact absurd hch hne0
    · rw [if_neg hcmp]
      constructor
      · intro q hq
        simp at hq
      · intro c0 hc0 hne0
        refine ⟨rfl, ?_⟩
        rw [FS.read_write_ne fs (p ++ ".tmp") p c (Ne.symm (ne_append_tmp p))]
        exact habs

/-- C1 witness: the theorem applied at a concrete hash-carrying download. -/
theorem hashVerifiedPromotion_witness :
    "pkg" = "pkg" ∧ ∃ c, netC "u" = Except.ok c ∧ (fun s => s) c = "c" ∧
      FS.read (downloadStep (fun s => s) netC [] uH "pkg").fs "pkg" = some c :=
  (hashVerifiedPromotion (fun s => s) netC [] uH "pkg" "c" rfl (by decide) rfl).1
    "pkg" rfl

/-! ### C4 — cached package short-circuits the download -/

/-- C4: when a file already exists at the target cache path, the download step
issues zero network requests, leaves the filesystem unchanged and returns the
existing cached path — the existence check short-circuits before any request. -/
theorem downloadStep_idempotent (hashFn : String → String)
    (net : String → Except String String) (fs : FS) (u : IUpdate) (p c : String)
    (hc : FS.read fs p = some c) :
    downloadStep hashFn net fs u p = { fs := fs, result := Except.ok p, requests := 0 } := by
  have hex : FS.existsFile fs p = true := by simp [FS.existsFile, hc]
  unfold downloadStep
  rw [hex]
  simp

/-- C4 witness: the theorem applied to a cache already holding the package. -/
theorem downloadStep_idempotent_witness :
    downloadStep (fun s => s) netC [("pkg", "c")] u0 "pkg" =
      { fs := [("pkg", "c")], result := Except.ok "pkg", requests := 0 } :=
  downloadStep_idempotent (fun s => s) netC [("pkg", "c")] u0 "pkg" "c" rfl

/-! ### C3 — cache janitor -/

/-- C3 counterexample: the cleanup filter is an end-anchored regular-expression
test, so two distinct package-scheme names (versions "1" and "x-q-1", both of
the form CodeSetup-q-version.exe) can both survive cleanup with except-version
"1" — the cache directory then holds two package files, refuting "at most one
package file survives". -/
theorem cleanupTwoSurvivors_counterexample :
    ¬ ((cleanup "q" (some "1") ["CodeSetup-q-1.exe", "CodeSetup-q-x-q-1.exe"]).length ≤ 1) := by
  decide

/-- C3 amended: after cleanup with except-version V, every surviving entry
matches the end-anchored cleanup regex quality-V\.exe$ (in which the dots of
quality and V are unescaped wildcards), and every entry not matching that
regex is deleted; more than one matching entry can survive, and for a dotted
V a survivor need not name V exactly. -/
theorem cleanup_regex_invariant (quality v : String) (dir : List String) :
    (∀ n ∈ cleanup quality (some v) dir, cleanupRegexTest quality v n = true)
    ∧ (∀ n ∈ dir, cleanupRegexTest quality v n = false →
        n ∉ cleanup quality (some v) dir) := by
  constructor
  · intro n hn
    have hk := (List.mem_filter.mp hn).2
    simpa [keepName] using hk
  · intro n _ hfalse hmem
    have hk := (List.mem_filter.mp hmem).2
    simp [keepName, hfalse] at hk

/-- C3 witness: the amended theorem applied to a concrete directory with the
dotted exempt version "1.30.2", whose unescaped dots make the lookalike name
CodeSetup-q-1x30y2.exe survive the cleanup. -/
theorem cleanup_regex_invariant_witness :
    cleanupRegexTest "q" "1.30.2" "CodeSetup-q-1x30y2.exe" = true :=
  (cleanup_regex_invariant "q" "1.30.2" ["CodeSetup-q-1x30y2.exe", "B.exe"]).1
    "CodeSetup-q-1x30y2.exe" (by decide)

/-! ### Reduction lemmas for the check cycle -/

/-- A cycle without a feed URL does nothing. -/
theorem doCheck_none (env : CheckEnv) (s : Sys) (hurl : env.url = none) :
    doCheckForUpdates env s =
      { sys := s, trace := [], telemetry := [], actions := [], requests := 0,
        err := none } := by
  unfold doCheckForUpdates
  rw [hurl]

/-- A cycle whose feed request or parse fails ends in the catch-all. -/
theorem doCheck_feed_error (env : CheckEnv) (s : Sys) (url₀ e : String)
    (hurl : env.url = some url₀) (hfeed : env.feedResponse = Except.error e) :
    doCheckForUpdates env s =
      { sys := { s with state := .Idle env.updateType (some e) }
      , trace := [.CheckingForUpdates env.context, .Idle env.updateType (some e)]
      , telemetry := [("update:notAvailable", env.context)]
      , actions := [], requests := 1, err := some e } := by
  unfold doCheckForUpdates
  rw [hurl, hfeed]
  rfl

/-- A cycle whose feed response carries no usable descriptor is the normal
"no update" outcome. -/
theorem doCheck_notAvailable (env : CheckEnv) (s : Sys) (url₀ : String)
    (updOpt : Option IUpdate) (hurl : env.url = some url₀)
    (hfeed : env.feedResponse = Except.ok updOpt)
    (hus : usableUpdate updOpt = false) :
    doCheckForUpdates env s = notAvailableResult env s := by
  unfold doCheckForUpdates
  rw [hurl, hfeed]
  cases updOpt with
  | none => rfl
  | some u =>
    show checkOnFeed env s (Except.ok (some u)) = notAvailableResult env s
    simp [checkOnFeed, hus]

/-- A cycle with a feed URL and a usable parsed descriptor runs the
descriptor tail. -/
theorem doCheck_eq_checkWithUpdate (env : CheckEnv) (s : Sys) (u : IUpdate)
    (url₀ : String) (hurl : env.url = some url₀)
    (hfeed : env.feedResponse = Except.ok (some u))
    (husable : usableUpdate (some u) = true) :
    doCheckForUpdates env s = checkWithUpdate env s u := by
  unfold doCheckForUpdates
  rw [hurl, hfeed]
  show checkOnFeed env s (Except.ok (some u)) = checkWithUpdate env s u
  simp [checkOnFeed, husable]

/-- An Archive-type cycle with a usable descriptor hands off to
AvailableForDownload. -/
theorem checkWithUpdate_archive (env : CheckEnv) (s : Sys) (u : IUpdate)
    (hA : env.updateType = UpdateType.Archive) :
    checkWithUpdate env s u =
      { sys := { s with state := .AvailableForDownload u }
      , trace := [.CheckingForUpdates env.context, .AvailableForDownload u]
      , telemetry := [], actions := [], requests := 1, err := none } := by
  unfold checkWithUpdate
  rw [if_pos hA]

/-- A non-Archive cycle whose download/verify step fails ends in the
catch-all. -/
theorem checkWithUpdate_error (env : CheckEnv) (s : Sys) (u : IUpdate) (e : String)
    (hnotA : env.updateType ≠ UpdateType.Archive)
    (hres : (cycleDownload env s u).result = Except.error e) :
    checkWithUpdate env s u =
      { sys := { s with state := .Idle env.updateType (some e), fs := (cycleDownload env s u).fs }
      , trace := [.CheckingForUpdates env.context, .Downloading u,
                  .Idle env.updateType (some e)]
      , telemetry := [("update:notAvailable", env.context)]
      , actions := [], requests := 1 + (cycleDownload env s u).requests,
        err := some e } := by
  unfold checkWithUpdate
  rw [if_neg hnotA, hres]

/-- Non-Archive cycle, successful download, fast-update path not taken:
the controller promotes straight to Ready. -/
theorem checkWithUpdate_ready (env : CheckEnv) (s : Sys) (u : IUpdate) (p : String)
    (hnotA : env.updateType ≠ UpdateType.Archive)
    (hres : (cycleDownload env s u).result = Except.ok p)
    (hnf : (env.fastUpdatesEnabled && u.supportsFastUpdate) = false) :
    checkWithUpdate env s u =
      { sys := { s with
          state := .Ready u,
          fs := (cycleDownload env s u).fs,
          availableUpdate := some { packagePath := p, updateFilePath := none } },
        trace := [.CheckingForUpdates env.context, .Downloading u, .Ready u],
        telemetry := [], actions := [],
        requests := 1 + (cycleDownload env s u).requests, err := none } := by
  unfold checkWithUpdate
  rw [if_neg hnotA, hres]
  simp [hnf]

/-- Non-Archive cycle, successful download, fast updates with a per-user
target: the controller applies immediately via `doApplyUpdate`. -/
theorem checkWithUpdate_fast_user (env : CheckEnv) (s : Sys) (u : IUpdate) (p : String)
    (hnotA : env.updateType ≠ UpdateType.Archive)
    (hres : (cycleDownload env s u).result = Except.ok p)
    (hfast : env.fastUpdatesEnabled = true) (hsup : u.supportsFastUpdate = true)
    (huser : env.target = "user") :
    checkWithUpdate env s u =
      { sys :=
          { state := .Updating u,
            availableUpdate :=
              some ⟨p, some (updateFlagName env.quality u.version)⟩,
            fs := FS.write (cycleDownload env s u).fs
              (updateFlagName env.quality u.version) "flag",
            pollPending := some u, exitArmed := true },
        trace := [.CheckingForUpdates env.context, .Downloading u, .Updating u],
        telemetry := [],
        actions := [Action.wroteFlag (updateFlagName env.quality u.version),
          Action.spawned p (installerArgs (updateFlagName env.quality u.version))],
        requests := 1 + (cycleDownload env s u).requests, err := none } := by
  unfold checkWithUpdate
  rw [if_neg hnotA, hres]
  simp [hfast, hsup, huser, doApplyUpdate]

/-- Non-Archive cycle, successful download, fast updates with a system-scope
target: the controller stops at Downloaded. -/
theorem checkWithUpdate_fast_system (env : CheckEnv) (s : Sys) (u : IUpdate) (p : String)
    (hnotA : env.updateType ≠ UpdateType.Archive)
    (hres : (cycleDownload env s u).result = Except.ok p)
    (hfast : env.fastUpdatesEnabled = true) (hsup : u.supportsFastUpdate = true)
    (hns : env.target ≠ "user") :
    checkWithUpdate env s u =
      { sys := { s with
          state := .Downloaded u,
          fs := (cycleDownload env s u).fs,
          availableUpdate := some { packagePath := p, updateFilePath := none } },
        trace := [.CheckingForUpdates env.context, .Downloading u, .Downloaded u],
        telemetry := [], actions := [],
        requests := 1 + (cycleDownload env s u).requests, err := none } := by
  unfold checkWithUpdate
  rw [if_neg hnotA, hres]
  have hb : (env.target == "user") = false := beq_eq_false_iff_ne.mpr hns
  simp [hfast, hsup, hb]

/-! ### C5 — errors end in Idle with a message, never a rejection -/

/-- Case analysis shared by the error-handling and telemetry theorems: a
captured error always ends in Idle with the message plus the telemetry
event. -/
theorem check_err_idle_aux (env : CheckEnv) (s : Sys) (e : String)
    (he : (doCheckForUpdates env s).err = some e) :
    (doCheckForUpdates env s).sys.state = UpdateState.Idle env.updateType (some e)
    ∧ (doCheckForUpdates env s).telemetry = [("update:notAvailable", env.context)] := by
  rcases hurl : env.url with _ | url₀
  · rw [doCheck_none env s hurl] at he
    simp at he
  · rcases hfeed : env.feedResponse with e0 | updOpt
    · rw [doCheck_feed_error env s url₀ e0 hurl hfeed] at he ⊢
      obtain rfl : e0 = e := by simpa using he
      exact ⟨rfl, rfl⟩
    · by_cases hus : usableUpdate updOpt = true
      · rcases updOpt with _ | u
        · simp [usableUpdate] at hus
        · rw [doCheck_eq_checkWithUpdate env s u url₀ hurl hfeed hus] at he ⊢
          by_cases hA : env.updateType = UpdateType.Archive
          · rw [checkWithUpdate_archive env s u hA] at he
            simp at he
          · rcases hres : (cycleDownload env s u).result with e0 | p
            · rw [checkWithUpdate_error env s u e0 hA hres] at he ⊢
              obtain rfl : e0 = e := by simpa using he
              exact ⟨rfl, rfl⟩
            · by_cases hf : (env.fastUpdatesEnabled && u.supportsFastUpdate) = true
              · have hf2 : env.fastUpdatesEnabled = true ∧ u.supportsFastUpdate = true := by
                  simpa using hf
                obtain ⟨ha, hb⟩ := hf2
                by_cases ht : env.target = "user"
                · rw [checkWithUpdate_fast_user env s u p hA hres ha hb ht] at he
                  simp at he
                · rw [checkWithUpdate_fast_system env s u p hA hres ha hb ht] at he
                  simp at he
              · have hnf : (env.fastUpdatesEnabled && u.supportsFastUpdate) = false := by
                  simpa using hf
                rw [checkWithUpdate_ready env s u p hA hres hnf] at he
                simp at he
      · have hus2 : usableUpdate updOpt = false := by simpa using hus
        rw [doCheck_notAvailable env s url₀ updOpt hurl hfeed hus2] at he
        simp [notAvailableResult] at he

/-- C5: whenever the catch-all of the check cycle captures an error — feed request
failure, download-transport error or checksum mismatch — the controller ends
in Idle carrying that error message and emits the `update:notAvailable`
telemetry event with the explicit flag; `doCheckForUpdates` is a total
function, so the error never escapes the controller boundary. -/
theorem checkErrors_idle (env : CheckEnv) (s : Sys) (e : String)
    (he : (doCheckForUpdates env s).err = some e) :
    (doCheckForUpdates env s).sys.state = UpdateState.Idle env.updateType (some e)
    ∧ (doCheckForUpdates env s).telemetry = [("update:notAvailable", env.context)] :=
  check_err_idle_aux env s e he

/-- C5 witness: a failed feed request ends in Idle with the message and the
telemetry event. -/
theorem checkErrors_idle_witness :
    (doCheckForUpdates envE sys0).sys.state =
      UpdateState.Idle envE.updateType (some "ECONNRESET")
    ∧ (doCheckForUpdates envE sys0).telemetry = [("update:notAvailable", envE.context)] :=
  checkErrors_idle envE sys0 "ECONNRESET" rfl

/-! ### C6 — fast-update routing by install scope -/

/-- C6: with fast updates enabled and a fast-update-capable descriptor, a
successful non-Archive download is routed by install scope — a per-user
target applies immediately (Updating, marker written, installer spawned,
readiness poll started) without ever entering the Downloaded state, while any
other target stops at Downloaded with no installer activity, awaiting an
explicit apply. -/
theorem fastUpdateScopes (env : CheckEnv) (s : Sys) (u : IUpdate) (url₀ p : String)
    (hurl : env.url = some url₀) (hfeed : env.feedResponse = Except.ok (some u))
    (husable : usableUpdate (some u) = true)
    (hnotA : env.updateType ≠ UpdateType.Archive)
    (hres : (cycleDownload env s u).result = Except.ok p)
    (hfast : env.fastUpdatesEnabled = true) (hsup : u.supportsFastUpdate = true) :
    (env.target = "user" →
        (doCheckForUpdates env s).sys.state = UpdateState.Updating u
        ∧ (doCheckForUpdates env s).trace =
            [UpdateState.CheckingForUpdates env.context, UpdateState.Downloading u,
             UpdateState.Updating u]
        ∧ (∀ v, UpdateState.Downloaded v ∉ (doCheckForUpdates env s).trace)
        ∧ (doCheckForUpdates env s).actions =
            [Action.wroteFlag (updateFlagName env.quality u.version),
             Action.spawned p (installerArgs (updateFlagName env.quality u.version))]
        ∧ (doCheckForUpdates env s).sys.pollPending = some u
        ∧ (doCheckForUpdates env s).sys.exitArmed = true)
    ∧ (env.target ≠ "user" →
        (doCheckForUpdates env s).sys.state = UpdateState.Downloaded u
        ∧ (doCheckForUpdates env s).actions = []
        ∧ (doCheckForUpdates env s).sys.pollPending = s.pollPending
        ∧ (doCheckForUpdates env s).sys.exitArmed = s.exitArmed) := by
  rw [doCheck_eq_checkWithUpdate env s u url₀ hurl hfeed husable]
  constructor
  · intro huser
    rw [checkWithUpdate_fast_user env s u p hnotA hres hfast hsup huser]
    refine ⟨rfl, rfl, ?_, rfl, rfl, rfl⟩
    intro v
    simp
  · intro hns
    rw [checkWithUpdate_fast_system env s u p hnotA hres hfast hsup hns]
    exact ⟨rfl, rfl, rfl, rfl⟩

/-- C6 witness: the theorem applied to a per-user fast-update cycle. -/
theorem fastUpdateScopes_witness :
    (doCheckForUpdates envF sys0).sys.state = UpdateState.Updating uF
    ∧ (doCheckForUpdates envF sys0).trace =
        [UpdateState.CheckingForUpdates envF.context, UpdateState.Downloading uF,
         UpdateState.Updating uF]
    ∧ (∀ v, UpdateState.Downloaded v ∉ (doCheckForUpdates envF sys0).trace)
    ∧ (doCheckForUpdates envF sys0).actions =
        [Action.wroteFlag (updateFlagName envF.quality uF.version),
         Action.spawned "CodeSetup-q-1.exe"
           (installerArgs (updateFlagName envF.quality uF.version))]
    ∧ (doCheckForUpdates envF sys0).sys.pollPending = some uF
    ∧ (doCheckForUpdates envF sys0).sys.exitArmed = true :=
  (fastUpdateScopes envF sys0 uF "feed" "CodeSetup-q-1.exe" rfl rfl (by decide)
    (by decide) rfl rfl rfl).1 rfl

/-! ### C2 — how the Ready state is entered -/

/-- C2 counterexample: a Setup-type cycle with fast updates disabled ends in
Ready although no installer was spawned, no readiness poll was started and no
readiness signal was ever observed (the action list is empty and no poll task
is pending) — Ready is reached without the readiness signal of the installer. -/
theorem readyWithoutSignal_counterexample :
    (doCheckForUpdates env0 sys0).sys.state = UpdateState.Ready u0
    ∧ (doCheckForUpdates env0 sys0).actions = []
    ∧ (doCheckForUpdates env0 sys0).sys.pollPending = none
    ∧ (doCheckForUpdates env0 sys0).sys.exitArmed = false :=
  ⟨rfl, rfl, rfl, rfl⟩

/-- C2 amended: a poll tick enters Ready only when it observes the readiness
mutex active on a pending poll task; but the check path itself enters Ready
directly — with no installer action and no poll — whenever the successful
download does not take the fast-update path. -/
theorem readyEntryModes :
    (∀ (s : Sys) (b : Bool) (u : IUpdate),
        (stepPollTick b s).state = UpdateState.Ready u →
        s.state = UpdateState.Ready u ∨ (b = true ∧ s.pollPending = some u))
    ∧ (∀ (env : CheckEnv) (s : Sys) (u : IUpdate) (url₀ p : String),
        env.url = some url₀ → env.feedResponse = Except.ok (some u) →
        usableUpdate (some u) = true → env.updateType ≠ UpdateType.Archive →
        (cycleDownload env s u).result = Except.ok p →
        (env.fastUpdatesEnabled && u.supportsFastUpdate) = false →
        (doCheckForUpdates env s).sys.state = UpdateState.Ready u
        ∧ (doCheckForUpdates env s).actions = []
        ∧ (doCheckForUpdates env s).sys.pollPending = s.pollPending
        ∧ (doCheckForUpdates env s).sys.exitArmed = s.exitArmed) := by
  constructor
  · intro s b u h
    unfold stepPollTick at h
    cases hp : s.pollPending with
    | none =>
      rw [hp] at h
      exact Or.inl h
    | some u0 =>
      rw [hp] at h
      cases b with
      | false => exact Or.inl h
      | true =>
        have h2 : u0 = u := by simpa using h
        subst h2
        exact Or.inr ⟨rfl, rfl⟩
  · intro env s u url₀ p hurl hfeed husable hnotA hres hnf
    rw [doCheck_eq_checkWithUpdate env s u url₀ hurl hfeed husable,
        checkWithUpdate_ready env s u p hnotA hres hnf]
    exact ⟨rfl, rfl, rfl, rfl⟩

/-- C2 witness for the amended theorem: the non-fast path of a concrete
cycle. -/
theorem readyEntryModes_witness :
    (doCheckForUpdates env0 sys0).sys.state = UpdateState.Ready u0
    ∧ (doCheckForUpdates env0 sys0).actions = []
    ∧ (doCheckForUpdates env0 sys0).sys.pollPending = sys0.pollPending
    ∧ (doCheckForUpdates env0 sys0).sys.exitArmed = sys0.exitArmed :=
  readyEntryModes.2 env0 sys0 u0 "feed" "CodeSetup-q-1.exe" rfl rfl (by decide)
    (by decide) rfl rfl

/-! ### C8 — which outcomes emit telemetry -/

/-- C8 counterexample: a completed check cycle that successfully downloads the
update (no error, package cached, controller in Ready) emits no telemetry
event at all — the successful-download outcome is not reported. -/
theorem successEmitsNoTelemetry_counterexample :
    (doCheckForUpdates env0 sys0).err = none
    ∧ FS.read (doCheckForUpdates env0 sys0).sys.fs "CodeSetup-q-1.exe" = some "c"
    ∧ (doCheckForUpdates env0 sys0).sys.state = UpdateState.Ready u0
    ∧ (doCheckForUpdates env0 sys0).telemetry = [] :=
  ⟨rfl, rfl, rfl, rfl⟩

/-- C8 amended: the `update:notAvailable` telemetry event carrying the
explicit flag is emitted exactly by the "no usable update" and error
outcomes; a cycle that ends in a success state (AvailableForDownload,
Downloaded, Updating or Ready) emits no telemetry event. -/
theorem telemetryOutcomes (env : CheckEnv) (s : Sys) :
    ((doCheckForUpdates env s).err.isSome = true →
        (doCheckForUpdates env s).telemetry = [("update:notAvailable", env.context)])
    ∧ (∀ (url₀ : String) (updOpt : Option IUpdate),
        env.url = some url₀ → env.feedResponse = Except.ok updOpt →
        usableUpdate updOpt = false →
        (doCheckForUpdates env s).telemetry = [("update:notAvailable", env.context)])
    ∧ (∀ u, ((doCheckForUpdates env s).sys.state = UpdateState.Ready u
          ∨ (doCheckForUpdates env s).sys.state = UpdateState.Downloaded u
          ∨ (doCheckForUpdates env s).sys.state = UpdateState.Updating u
          ∨ (doCheckForUpdates env s).sys.state = UpdateState.AvailableForDownload u) →
        (doCheckForUpdates env s).telemetry = []) := by
  refine ⟨?_, ?_, ?_⟩
  · intro hs
    obtain ⟨e, he⟩ := Option.isSome_iff_exists.mp hs
    exact (check_err_idle_aux env s e he).2
  · intro url₀ updOpt hurl hfeed hus
    rw [doCheck_notAvailable env s url₀ updOpt hurl hfeed hus]
    rfl
  · intro u hstate
    rcases hurl : env.url with _ | url₀
    · rw [doCheck_none env s hurl]
    · rcases hfeed : env.feedResponse with e0 | updOpt
      · rw [doCheck_feed_error env s url₀ e0 hurl hfeed] at hstate
        rcases hstate with h | h | h | h <;> simp at h
      · by_cases hus : usableUpdate updOpt = true
        · rcases updOpt with _ | u2
          · simp [usableUpdate] at hus
          · rw [doCheck_eq_checkWithUpdate env s u2 url₀ hurl hfeed hus]
            by_cases hA : env.updateType = UpdateType.Archive
            · rw [checkWithUpdate_archive env s u2 hA]
            · rcases hres : (cycleDownload env s u2).result with e0 | p
              · rw [doCheck_eq_checkWithUpdate env s u2 url₀ hurl hfeed hus,
                    checkWithUpdate_error env s u2 e0 hA hres] at hstate
                rcases hstate with h | h | h | h <;> simp at h
              · by_cases hf : (env.fastUpdatesEnabled && u2.supportsFastUpdate) = true
                · have hf2 : env.fastUpdatesEnabled = true ∧ u2.supportsFastUpdate = true := by
                    simpa using hf
                  obtain ⟨ha, hb⟩ := hf2
                  by_cases ht : env.target = "user"
                  · rw [checkWithUpdate_fast_user env s u2 p hA hres ha hb ht]
                  · rw [checkWithUpdate_fast_system env s u2 p hA hres ha hb ht]
                · have hnf : (env.fastUpdatesEnabled && u2.supportsFastUpdate) = false := by
                    simpa using hf
                  rw [checkWithUpdate_ready env s u2 p hA hres hnf]
        · have hus2 : usableUpdate updOpt = false := by simpa using hus
          rw [doCheck_notAvailable env s url₀ updOpt hurl hfeed hus2] at hstate
          rcases hstate with h | h | h | h <;> simp [notAvailableResult] at h

/-- C8 witness for the amended theorem: a background check finding no update
emits the event with the explicit flag false. -/
theorem telemetryOutcomes_witness :
    (doCheckForUpdates envN sys0).telemetry = [("update:notAvailable", envN.context)] :=
  (telemetryOutcomes envN sys0).2.1 "feed" none rfl rfl rfl

/-! ### C7 — installer exit unwinds the controller -/

/-- C7: when the armed exit observer fires (installer exited before
readiness), the controller returns to Idle with the available-update record
cleared, and a subsequent `doApplyUpdate` call is a no-op — it changes no
state and performs no action. -/
theorem exitThenApplyNoop (updateType : UpdateType) (quality : String) (s : Sys)
    (h : s.exitArmed = true) :
    (stepInstallerExit updateType s).state = UpdateState.Idle updateType none
    ∧ (stepInstallerExit updateType s).availableUpdate = none
    ∧ doApplyUpdate quality (stepInstallerExit updateType s) =
        { sys := stepInstallerExit updateType s, trace := [], actions := [] } := by
  unfold stepInstallerExit
  rw [if_pos h]
  exact ⟨rfl, rfl, rfl⟩

/-- C7 witness: the theorem applied to a service whose installer is running. -/
theorem exitThenApplyNoop_witness :
    (stepInstallerExit UpdateType.Setup
        { state := .Updating uF,
          availableUpdate := some ⟨"CodeSetup-q-1.exe", some "CodeSetup-q-1.flag"⟩,
          fs := [], pollPending := some uF, exitArmed := true }).state =
      UpdateState.Idle UpdateType.Setup none
    ∧ (stepInstallerExit UpdateType.Setup
        { state := .Updating uF,
          availableUpdate := some ⟨"CodeSetup-q-1.exe", some "CodeSetup-q-1.flag"⟩,
          fs := [], pollPending := some uF, exitArmed := true }).availableUpdate = none
    ∧ doApplyUpdate "q" (stepInstallerExit UpdateType.Setup
        { state := .Updating uF,
          availableUpdate := some ⟨"CodeSetup-q-1.exe", some "CodeSetup-q-1.flag"⟩,
          fs := [], pollPending := some uF, exitArmed := true }) =
        { sys := stepInstallerExit UpdateType.Setup
            { state := .Updating uF,
              availableUpdate := some ⟨"CodeSetup-q-1.exe", some "CodeSetup-q-1.flag"⟩,
              fs := [], pollPending := some uF, exitArmed := true },
          trace := [], actions := [] } :=
  exitThenApplyNoop UpdateType.Setup "q"
    { state := .Updating uF,
      availableUpdate := some ⟨"CodeSetup-q-1.exe", some "CodeSetup-q-1.flag"⟩,
      fs := [], pollPending := some uF, exitArmed := true } rfl

/-! ### C9 — termination of the readiness poll loop -/

/-- A completed poll run completed at an index where the predicate was true. -/
theorem pollRuns_some_true (s : Nat → Bool) :
    ∀ (fuel k m : Nat), pollUntilRuns s k fuel = some m → s m = true := by
  intro fuel
  induction fuel with
  | zero =>
    intro k m h
    simp [pollUntilRuns] at h
  | succ n ih =>
    intro k m h
    unfold pollUntilRuns at h
    by_cases hk : s k = true
    · rw [if_pos hk] at h
      obtain rfl : k = m := Option.some.inj h
      exact hk
    · rw [if_neg hk] at h
      exact ih (k + 1) m h

/-- A true predicate value inside the fuel window completes the poll run. -/
theorem pollRuns_some_of_true (s : Nat → Bool) :
    ∀ (fuel k j : Nat), j < fuel → s (k + j) = true →
      (pollUntilRuns s k fuel).isSome = true := by
  intro fuel
  induction fuel with
  | zero =>
    intro k j hj
    omega
  | succ n ih =>
    intro k j hj hs
    unfold pollUntilRuns
    by_cases hk : s k = true
    · rw [if_pos hk]
      rfl
    · rw [if_neg hk]
      have hj0 : j ≠ 0 := by
        intro h0
        rw [h0, Nat.add_zero] at hs
        exact hk hs
      have hs2 : s (k + 1 + (j - 1)) = true := by
        have : k + 1 + (j - 1) = k + j := by omega
        rw [this]
        exact hs
      exact ih (k + 1) (j - 1) (by omega) hs2

/-- A poll run over an everywhere-false window returns none (still pending). -/
theorem pollRuns_none_of_false (s : Nat → Bool) :
    ∀ (fuel k : Nat), (∀ j, j < fuel → s (k + j) = false) →
      pollUntilRuns s k fuel = none := by
  intro fuel
  induction fuel with
  | zero =>
    intro k _
    rfl
  | succ n ih =>
    intro k hall
    unfold pollUntilRuns
    have h0 : s k = false := by
      have := hall 0 (by omega)
      rwa [Nat.add_zero] at this
    rw [if_neg (by rw [h0]; exact Bool.false_ne_true)]
    exact ih (k + 1) (fun j hj => by
      have := hall (j + 1) (by omega)
      rwa [Nat.add_comm j 1, ← Nat.add_assoc] at this)

/-- C9 counterexample: on a trace where the installer has exited at every
instant but the readiness mutex never becomes active, the poll task never
completes — installer exit does not stop the polling task, refuting
"terminates exactly when the signal becomes active or the installer process
exits". -/
theorem pollIgnoresInstallerExit_counterexample :
    (∀ n, ((fun _ => { mutexActive := false, installerExited := true } :
        Nat → SysObs) n).installerExited = true)
    ∧ ¬ pollCompletes (readyPollFn
        (fun _ => { mutexActive := false, installerExited := true })) := by
  constructor
  · intro n
    rfl
  · intro hc
    obtain ⟨fuel, hf⟩ := hc
    obtain ⟨m, hm⟩ := Option.isSome_iff_exists.mp hf
    have := pollRuns_some_true
      (readyPollFn (fun _ => { mutexActive := false, installerExited := true }))
      fuel 0 m hm
    simp [readyPollFn] at this

/-- C9 amended: the poll loop has no upper bound on attempts — for every
fuel bound there is a predicate trace still pending at that bound yet
eventually completing — and the task completes exactly when the polled
predicate becomes true at some tick; since the predicate polled for installer
readiness reads only the readiness mutex, the poll completes exactly when the
mutex becomes active, regardless of installer exit. -/
theorem pollTerminationIffSignal :
    (∀ s : Nat → Bool, pollCompletes s ↔ ∃ n, s n = true)
    ∧ (∀ n : Nat, ∃ s : Nat → Bool,
        pollUntilRuns s 0 n = none ∧ pollCompletes s)
    ∧ (∀ t : Nat → SysObs,
        pollCompletes (readyPollFn t) ↔ ∃ n, (t n).mutexActive = true) := by
  have hiff : ∀ s : Nat → Bool, pollCompletes s ↔ ∃ n, s n = true := by
    intro s
    constructor
    · intro hc
      obtain ⟨fuel, hf⟩ := hc
      obtain ⟨m, hm⟩ := Option.isSome_iff_exists.mp hf
      exact ⟨m, pollRuns_some_true s fuel 0 m hm⟩
    · intro he
      obtain ⟨n, hn⟩ := he
      refine ⟨n + 1, pollRuns_some_of_true s (n + 1) 0 n (by omega) ?_⟩
      rwa [Nat.zero_add]
  refine ⟨hiff, ?_, ?_⟩
  · intro n
    refine ⟨fun k => k == n, ?_, ?_⟩
    · exact pollRuns_none_of_false (fun k => k == n) n 0 (fun j hj => by
        rw [Nat.zero_add]
        simp
        omega)
    · exact (hiff (fun k => k == n)).mpr ⟨n, by simp⟩
  · intro t
    exact hiff (readyPollFn t)

/-! ### C10 — the Ready state can carry an empty record -/

/-- C10 failing execution: a per-user fast-update cycle leaves the poll task
pending and the exit observer armed; the installer then exits (observer
clears the record and returns to Idle, but does not cancel the poll), after
which the poll tick observes the readiness mutex active (e.g. held by the
staging child of the installer) and sets Ready — a reachable Ready state whose
available-update record is empty, so the unguarded record
reads of `doQuitAndInstall` dereference an absent record (a TypeError in the source). -/
theorem readyWithClearedRecord_bug :
    (stepPollTick true (stepInstallerExit UpdateType.Setup
        (doCheckForUpdates envF sys0).sys)).state = UpdateState.Ready uF
    ∧ (stepPollTick true (stepInstallerExit UpdateType.Setup
        (doCheckForUpdates envF sys0).sys)).availableUpdate = none
    ∧ doQuitAndInstall (stepPollTick true (stepInstallerExit UpdateType.Setup
        (doCheckForUpdates envF sys0).sys)) = QuitOutcome.crashAbsentRecord :=
  ⟨rfl, rfl, rfl⟩
